import Mathlib

/-!
Shallow embedding of sequential_uuids.c (tvondra/sequential-uuids).

The two entry points `uuid_sequence_nextval` and `uuid_time_nextval` are
modelled as pure functions.  External collaborators are passed as
parameters:
  * the value returned by `nextval_internal(relid, true)` becomes the
    argument `nextval : Int`;
  * `gettimeofday` becomes `clock : Option Int` (`none` models a failing
    call, `some tv_sec` a successful read of the seconds field);
  * `pg_strong_random` becomes `rng : Nat → Option (List Nat)` — asked for
    `n` bytes it either fails (`none`, C returns false) or supplies them.
Machine integers are modelled as `Int`; the C `/` on int64/int32 operands
is truncated division, i.e. `Int.tdiv`.  A `pg_uuid_t` is a `List Nat` of
16 bytes.  Byte `j` of the int64 `val` as seen through
`p = (unsigned char *) &val` on the little-endian reference platform is
the two's-complement byte `(val mod 2^64) / 256^j mod 256`.
-/

namespace SequentialUUIDs

/-- Error conditions surfaced by `ereport(ERROR, ...)` / `elog(ERROR, ...)`:
invalid parameter value, failure of `pg_strong_random`, failure of
`gettimeofday`. -/
inductive Failure
  | invalidParameter
  | randomSourceFailure
  | clockFailure
  deriving DecidableEq

/-- UUID_LEN from the PostgreSQL headers: a uuid has 16 data bytes. -/
abbrev UUID_LEN : Nat := 16

/-- Byte `i` of a byte list (reading `uuid->data[i]`). -/
def byteAt (l : List Nat) (i : Nat) : Nat := l.getD i 0

/-- Build a 16-byte buffer whose byte `i` is `f i`.  Each C loop in the
source writes every index of `uuid->data` it touches exactly once, so a
loop body becomes the function `f`. -/
def mkBytes (f : Nat → Nat) : List Nat := (List.range UUID_LEN).map f

/-- Byte `j` (least significant first) of the int64 `v` in memory on the
little-endian two's-complement reference platform: what `p[j]` reads after
`p = (unsigned char *) &val`. -/
def int64Byte (v : Int) (j : Nat) : Nat :=
  ((v % (2 : Int) ^ 64).toNat / 256 ^ j) % 256

/-- The byte-counting loop body, with explicit fuel:
`while (block_count > 1) { block_count /= 256; prefix_bytes++; }`.
Starting from any int64 value the loop runs at most 8 iterations (each one
divides by 256), and from an int32 `block_count` at most 4, so any fuel
of at least 8 makes the recursion equal to the C while-loop on every
representable input. -/
def countLoop : Nat → Int → Nat
  | 0, _ => 0
  | fuel + 1, block_count =>
      if 1 < block_count then countLoop fuel (Int.tdiv block_count 256) + 1 else 0

/-- Number of prefix bytes kept from the sequence/timestamp value: the
result of the byte-counting loop (fuel 16 is unreachable for the int32
operand, see `countLoop`). -/
def countKeptBytes (block_count : Int) : Nat := countLoop 16 block_count

/-- The prefix-copy loop:
`for (i = 0; i < prefix_bytes; i++) uuid->data[i] = p[prefix_bytes - 1 - i];`
leaving all other bytes of the buffer as they were. -/
def copyKeptBytes (val : Int) (pb : Nat) (buf : List Nat) : List Nat :=
  mkBytes fun i => if i < pb then int64Byte val (pb - 1 - i) else byteAt buf i

/-- `pg_strong_random(uuid->data + prefix_bytes, UUID_LEN - prefix_bytes)`
on success: bytes below `off` are kept, bytes from `off` on come from the
supplied random block. -/
def fillRandom (off : Nat) (rnd : List Nat) (buf : List Nat) : List Nat :=
  mkBytes fun i => if i < off then byteAt buf i else byteAt rnd (i - off)

/-- RFC 4122 version/variant stamping:
`uuid->data[6] = (uuid->data[6] & 0x0f) | 0x40;`
`uuid->data[8] = (uuid->data[8] & 0x3f) | 0x80;`. -/
def stampV4 (buf : List Nat) : List Nat :=
  mkBytes fun i =>
    if i = 6 then (byteAt buf 6 &&& 0x0f) ||| 0x40
    else if i = 8 then (byteAt buf 8 &&& 0x3f) ||| 0x80
    else byteAt buf i

/-- `uuid_sequence_nextval(relid, block_size, block_count)`.  The value the
sequence returned is the parameter `nextval`.  Checks are `< 0` exactly as
in the source; note the C code then computes `val /= block_size` even when
`block_size` is zero (undefined behaviour in C; `Int.tdiv _ 0 = 0` here, so
in the model the call simply proceeds). -/
def uuid_sequence_nextval (block_size block_count nextval : Int)
    (rng : Nat → Option (List Nat)) : Except Failure (List Nat) :=
  if block_size < 0 then Except.error Failure.invalidParameter
  else if block_count < 0 then Except.error Failure.invalidParameter
  else
    let pb := countKeptBytes block_count
    let val := Int.tdiv nextval block_size
    match rng (UUID_LEN - pb) with
    | none => Except.error Failure.randomSourceFailure
    | some rnd =>
        Except.ok (stampV4 (fillRandom pb rnd
          (copyKeptBytes val pb (List.replicate UUID_LEN 0))))

/-- `uuid_time_nextval(interval_length, interval_count)`.  Checks are `< 1`
as in the source; a failing `gettimeofday` is `clock = none`. -/
def uuid_time_nextval (interval_length interval_count : Int)
    (clock : Option Int) (rng : Nat → Option (List Nat)) :
    Except Failure (List Nat) :=
  if interval_length < 1 then Except.error Failure.invalidParameter
  else if interval_count < 1 then Except.error Failure.invalidParameter
  else
    match clock with
    | none => Except.error Failure.clockFailure
    | some tv_sec =>
        let val := Int.tdiv tv_sec interval_length
        let pb := countKeptBytes interval_count
        match rng (UUID_LEN - pb) with
        | none => Except.error Failure.randomSourceFailure
        | some rnd =>
            Except.ok (stampV4 (fillRandom pb rnd
              (copyKeptBytes val pb (List.replicate UUID_LEN 0))))

/-- A random source that always supplies the requested number of bytes. -/
def okRng : Nat → Option (List Nat) := fun n => some (List.replicate n 0)

/-- A random source that always fails (entropy unavailable). -/
def failRng : Nat → Option (List Nat) := fun _ => none

/-- Byte `i` of a successful result (0 on an error, only used under a
success hypothesis or at concrete successful inputs). -/
def resultByte (r : Except Failure (List Nat)) (i : Nat) : Nat :=
  match r with
  | Except.ok u => byteAt u i
  | Except.error _ => 0

/-- Stated from the spec for the refinement claim about the encoder:
big-endian byte `i` (0 = most significant) of the value
`bucket_index mod 256 ^ byte_count`. -/
def specBigEndianByte (bucket_index : Int) (byte_count i : Nat) : Nat :=
  (bucket_index % (256 : Int) ^ byte_count).toNat / 256 ^ (byte_count - 1 - i) % 256

theorem byteAt_mkBytes (f : Nat → Nat) (i : Nat) (h : i < UUID_LEN) :
    byteAt (mkBytes f) i = f i := by
  simp [byteAt, mkBytes, List.getD_eq_getElem?_getD, List.getElem?_map,
    List.getElem?_range h]

theorem mkBytes_congr {f g : Nat → Nat} (h : ∀ i, i < UUID_LEN → f i = g i) :
    mkBytes f = mkBytes g := by
  unfold mkBytes
  exact List.map_congr_left fun a ha => h a (List.mem_range.mp ha)

theorem nat_byte_mod (a j k : Nat) (hjk : j < k) :
    a / 256 ^ j % 256 = a % 256 ^ k / 256 ^ j % 256 := by
  conv_lhs => rw [← Nat.mod_mul_right_div_self]
  conv_rhs => rw [← Nat.mod_mul_right_div_self]
  rw [← pow_succ, Nat.mod_mod_of_dvd a (pow_dvd_pow 256 hjk)]

theorem toNat_emod_cast (x : Int) (hx : 0 ≤ x) (N : Nat) :
    (x % ((N : Nat) : Int)).toNat = x.toNat % N := by
  obtain ⟨m, rfl⟩ := Int.eq_ofNat_of_zero_le hx
  rw [← Int.natCast_mod]
  exact Int.toNat_natCast _

theorem int64Byte_emod (v : Int) (j k : Nat) (hjk : j < k) (hk : k ≤ 8) :
    int64Byte v j = (v % (256 : Int) ^ k).toNat / 256 ^ j % 256 := by
  have hdvd : ((256 : Int) ^ k) ∣ (2 : Int) ^ 64 := by
    have h28 : (2 : Int) ^ 64 = 256 ^ 8 := by norm_num
    rw [h28]
    exact pow_dvd_pow 256 hk
  have hmm : v % (2 : Int) ^ 64 % (256 : Int) ^ k = v % (256 : Int) ^ k :=
    Int.emod_emod_of_dvd v hdvd
  have hx : 0 ≤ v % (2 : Int) ^ 64 := Int.emod_nonneg v (by positivity)
  have hcast : ((256 : Int)) ^ k = (((256 ^ k : Nat) : Int)) := by push_cast; rfl
  have h1 : (v % (256 : Int) ^ k).toNat = (v % (2 : Int) ^ 64).toNat % 256 ^ k := by
    rw [← hmm, hcast, toNat_emod_cast _ hx]
  unfold int64Byte
  rw [h1, ← nat_byte_mod _ j k hjk]

theorem int64Byte_add_mul (v m : Int) (j k : Nat) (hjk : j < k) (hk : k ≤ 8) :
    int64Byte (v + m * (256 : Int) ^ k) j = int64Byte v j := by
  rw [int64Byte_emod _ j k hjk hk, int64Byte_emod v j k hjk hk,
    Int.add_mul_emod_self]

theorem countLoop_le (fuel : Nat) :
    ∀ (bc : Int) (k : Nat), k ≤ fuel → bc < 2 * 256 ^ k → countLoop fuel bc ≤ k := by
  induction fuel with
  | zero =>
      intro bc k _ _
      simp [countLoop]
  | succ n ih =>
      intro bc k hk h
      unfold countLoop
      split
      · rename_i hbc
        cases k with
        | zero =>
            exfalso
            simp at h
            omega
        | succ m =>
            have htd : Int.tdiv bc 256 = bc / 256 :=
              Int.tdiv_eq_ediv (by omega) (by omega)
            have hlt : bc / 256 < 2 * 256 ^ m := by
              rw [Int.ediv_lt_iff_lt_mul (by norm_num : (0 : Int) < 256)]
              have hp : (256 : Int) ^ (m + 1) = 256 ^ m * 256 := pow_succ 256 m
              nlinarith [h, hp]
            have := ih (Int.tdiv bc 256) m (by omega) (by rw [htd]; exact hlt)
            omega
      · omega

theorem countLoop_bound (fuel : Nat) :
    ∀ bc : Int, bc < 2 * 256 ^ fuel → bc < 2 * 256 ^ countLoop fuel bc := by
  induction fuel with
  | zero =>
      intro bc h
      simpa [countLoop] using h
  | succ n ih =>
      intro bc h
      unfold countLoop
      split
      · rename_i hbc
        have htd : Int.tdiv bc 256 = bc / 256 :=
          Int.tdiv_eq_ediv (by omega) (by omega)
        have hlt : bc / 256 < 2 * 256 ^ n := by
          rw [Int.ediv_lt_iff_lt_mul (by norm_num : (0 : Int) < 256)]
          have hp : (256 : Int) ^ (n + 1) = 256 ^ n * 256 := pow_succ 256 n
          nlinarith [h, hp]
        have hIH := ih (bc / 256) hlt
        have hdm : 256 * (bc / 256) + bc % 256 = bc := Int.ediv_add_emod bc 256
        have hm : bc % 256 < 256 := Int.emod_lt_of_pos bc (by norm_num)
        rw [htd, pow_succ]
        nlinarith [hIH, hdm, hm]
      · rename_i hbc
        simp only [pow_zero]
        omega

theorem countKeptBytes_le_four (bc : Int) (h : bc ≤ 2 ^ 31 - 1) :
    countKeptBytes bc ≤ 4 := by
  unfold countKeptBytes
  exact countLoop_le 16 bc 4 (by omega) (by nlinarith [h])

theorem byteAt_copyKeptBytes_lo (val : Int) (pb : Nat) (buf : List Nat)
    (i : Nat) (hi : i < UUID_LEN) (h : i < pb) :
    byteAt (copyKeptBytes val pb buf) i = int64Byte val (pb - 1 - i) := by
  unfold copyKeptBytes
  rw [byteAt_mkBytes _ i hi, if_pos h]

theorem byteAt_copyKeptBytes_hi (val : Int) (pb : Nat) (buf : List Nat)
    (i : Nat) (hi : i < UUID_LEN) (h : ¬ i < pb) :
    byteAt (copyKeptBytes val pb buf) i = byteAt buf i := by
  unfold copyKeptBytes
  rw [byteAt_mkBytes _ i hi, if_neg h]

theorem byteAt_fillRandom_lo (off : Nat) (rnd buf : List Nat)
    (i : Nat) (hi : i < UUID_LEN) (h : i < off) :
    byteAt (fillRandom off rnd buf) i = byteAt buf i := by
  unfold fillRandom
  rw [byteAt_mkBytes _ i hi, if_pos h]

theorem byteAt_stampV4_other (buf : List Nat) (i : Nat) (hi : i < UUID_LEN)
    (h6 : i ≠ 6) (h8 : i ≠ 8) :
    byteAt (stampV4 buf) i = byteAt buf i := by
  unfold stampV4
  rw [byteAt_mkBytes _ i hi, if_neg h6, if_neg h8]

theorem byteAt_stampV4_six (buf : List Nat) :
    byteAt (stampV4 buf) 6 = (byteAt buf 6 &&& 0x0f) ||| 0x40 := by
  unfold stampV4
  rw [byteAt_mkBytes _ 6 (by decide)]
  simp

theorem byteAt_stampV4_eight (buf : List Nat) :
    byteAt (stampV4 buf) 8 = (byteAt buf 8 &&& 0x3f) ||| 0x80 := by
  unfold stampV4
  rw [byteAt_mkBytes _ 8 (by decide)]
  simp

theorem low_nibble_or_version (x : Nat) (hx : x < 16) :
    (x ||| 0x40) &&& 0xf0 = 0x40 ∧ (x ||| 0x40) &&& 0x0f = x := by
  revert hx
  revert x
  decide

theorem low_bits_or_variant (x : Nat) (hx : x < 64) :
    (x ||| 0x80) &&& 0xc0 = 0x80 ∧ (x ||| 0x80) &&& 0x3f = x := by
  revert hx
  revert x
  decide

theorem and_mask_lt_sixteen (b : Nat) : b &&& 0x0f < 16 :=
  Nat.lt_succ_of_le (Nat.and_le_right)

theorem and_mask_lt_sixtyfour (b : Nat) : b &&& 0x3f < 64 :=
  Nat.lt_succ_of_le (Nat.and_le_right)

theorem stampV4_version_bits (buf : List Nat) :
    byteAt (stampV4 buf) 6 &&& 0xf0 = 0x40 ∧
      byteAt (stampV4 buf) 8 &&& 0xc0 = 0x80 := by
  rw [byteAt_stampV4_six, byteAt_stampV4_eight]
  exact ⟨(low_nibble_or_version _ (and_mask_lt_sixteen _)).1,
    (low_bits_or_variant _ (and_mask_lt_sixtyfour _)).1⟩

theorem uuid_sequence_nextval_ok (block_size block_count nextval : Int)
    (rng : Nat → Option (List Nat)) (rnd : List Nat)
    (h1 : ¬ block_size < 0) (h2 : ¬ block_count < 0)
    (hr : rng (UUID_LEN - countKeptBytes block_count) = some rnd) :
    uuid_sequence_nextval block_size block_count nextval rng =
      Except.ok (stampV4 (fillRandom (countKeptBytes block_count) rnd
        (copyKeptBytes (Int.tdiv nextval block_size) (countKeptBytes block_count)
          (List.replicate UUID_LEN 0)))) := by
  unfold uuid_sequence_nextval
  rw [if_neg h1, if_neg h2]
  simp only [hr]

theorem uuid_sequence_nextval_rng_fail (block_size block_count nextval : Int)
    (rng : Nat → Option (List Nat))
    (h1 : ¬ block_size < 0) (h2 : ¬ block_count < 0)
    (hr : rng (UUID_LEN - countKeptBytes block_count) = none) :
    uuid_sequence_nextval block_size block_count nextval rng =
      Except.error Failure.randomSourceFailure := by
  unfold uuid_sequence_nextval
  rw [if_neg h1, if_neg h2]
  simp only [hr]

theorem uuid_time_nextval_ok (interval_length interval_count tv_sec : Int)
    (rng : Nat → Option (List Nat)) (rnd : List Nat)
    (h1 : ¬ interval_length < 1) (h2 : ¬ interval_count < 1)
    (hr : rng (UUID_LEN - countKeptBytes interval_count) = some rnd) :
    uuid_time_nextval interval_length interval_count (some tv_sec) rng =
      Except.ok (stampV4 (fillRandom (countKeptBytes interval_count) rnd
        (copyKeptBytes (Int.tdiv tv_sec interval_length)
          (countKeptBytes interval_count) (List.replicate UUID_LEN 0)))) := by
  unfold uuid_time_nextval
  rw [if_neg h1, if_neg h2]
  simp only [hr]

theorem uuid_time_nextval_rng_fail (interval_length interval_count tv_sec : Int)
    (rng : Nat → Option (List Nat))
    (h1 : ¬ interval_length < 1) (h2 : ¬ interval_count < 1)
    (hr : rng (UUID_LEN - countKeptBytes interval_count) = none) :
    uuid_time_nextval interval_length interval_count (some tv_sec) rng =
      Except.error Failure.randomSourceFailure := by
  unfold uuid_time_nextval
  rw [if_neg h1, if_neg h2]
  simp only [hr]

/-- C1: the claim says both entry points reject a divisor or bucket count
below 1 — including exactly 0 — with InvalidParameter.  The time-mode
checks are `< 1` and do so, but the sequence-mode checks are `< 0`, so a
zero `block_size` or `block_count` passes validation (the error text
itself demands a positive integer) and the call proceeds — in C straight
into `val /= block_size`, a division by zero when `block_size = 0`.  This
theorem evaluates the model at the failing inputs: zero arguments sail
through sequence-mode validation while time mode rejects them. -/
theorem c1_zero_args_divergence :
    (uuid_sequence_nextval 0 65536 5 okRng).isOk = true ∧
    (uuid_sequence_nextval 65546 0 5 okRng).isOk = true ∧
    uuid_time_nextval 0 65536 (some 1700000000) okRng =
      Except.error Failure.invalidParameter ∧
    uuid_time_nextval 60 0 (some 1700000000) okRng =
      Except.error Failure.invalidParameter :=
  ⟨rfl, rfl, rfl, rfl⟩

/-- C2 counterexample: with counter value 256, block_size = 256 and
block_count = 256 the claimed bucket index (256 − 1) / 256 = 0 would give
prefix byte 0, but the generated UUID's first byte is 1: the code divides
the counter value itself, it never subtracts one. -/
theorem c2_minus_one_formula_fails :
    resultByte (uuid_sequence_nextval 256 256 256 okRng) 0 ≠
      int64Byte (Int.tdiv (256 - 1) 256) 0 := by
  decide

/-- C2 amended: in sequence mode the bucket index used for the prefix is
external_counter_next() / block_size — the value read from the counter
source, with no subtraction of one — under integer division truncating
toward zero; every prefix byte of the result is the corresponding byte of
that quotient. -/
theorem c2_bucket_index_is_plain_div
    (block_size block_count nextval : Int) (rng : Nat → Option (List Nat))
    (rnd : List Nat) (i : Nat)
    (h1 : 0 ≤ block_size) (h2 : 0 ≤ block_count)
    (h3 : block_count ≤ 2 ^ 31 - 1)
    (hr : rng (UUID_LEN - countKeptBytes block_count) = some rnd)
    (hi : i < countKeptBytes block_count) :
    resultByte (uuid_sequence_nextval block_size block_count nextval rng) i =
      int64Byte (Int.tdiv nextval block_size)
        (countKeptBytes block_count - 1 - i) := by
  have hpb : countKeptBytes block_count ≤ 4 := countKeptBytes_le_four _ h3
  rw [uuid_sequence_nextval_ok _ _ _ _ rnd (by omega) (by omega) hr]
  simp only [resultByte]
  rw [byteAt_stampV4_other _ i (show i < 16 by omega)
      (by omega) (by omega),
    byteAt_fillRandom_lo _ _ _ i (show i < 16 by omega) hi,
    byteAt_copyKeptBytes_lo _ _ _ i (show i < 16 by omega) hi]

/-- C2 witness: the spec's own sequence scenario — counter value 5000000,
block_size 65546, block_count 65536 — where the second prefix byte is the
low byte of 5000000 / 65546 = 76. -/
theorem c2_bucket_index_witness :
    resultByte (uuid_sequence_nextval 65546 65536 5000000 okRng) 1 =
      int64Byte (Int.tdiv 5000000 65546) 0 ∧
    int64Byte (Int.tdiv (5000000 : Int) 65546) 0 = 76 := by
  refine ⟨?_, by decide⟩
  have h := c2_bucket_index_is_plain_div 65546 65536 5000000 okRng
    (List.replicate 14 0) 1 (by decide) (by decide) (by decide) rfl (by decide)
  simpa using h

/-- C3 counterexample: the repeated-division-by-256 loop stops as soon as
the quotient reaches 1, and 257 / 256 = 1, so it yields 1 byte for a
bucket count of 257, not the 2 bytes the claim states. -/
theorem c3_resolve_257_not_two : countKeptBytes 257 ≠ 2 := by
  decide

/-- C3 amended: the width resolver yields 0 bytes for bucket_count 1,
1 byte for 256, and still only 1 byte for 257 (1 byte up to 511, 2 bytes
from 512 on). -/
theorem c3_resolve_values :
    countKeptBytes 1 = 0 ∧ countKeptBytes 256 = 1 ∧ countKeptBytes 257 = 1 ∧
    countKeptBytes 511 = 1 ∧ countKeptBytes 512 = 2 := by
  decide

/-- C4 counterexample: at bucket_count = 257 the resolver yields 1 byte
and 2^8 = 256 < 257, so the whole-byte prefix cannot represent every
bucket index below 257 — indices 256·m alias with 0. -/
theorem c4_width_insufficient_at_257 :
    ¬ ((257 : Int) ≤ 2 ^ (8 * countKeptBytes 257)) := by
  decide

/-- C4 amended: for every int32 bucket_count ≥ 1 the resolved width
satisfies only the factor-two bound 2^(8·byte_count + 1) > bucket_count;
the claimed 2^(8·byte_count) ≥ bucket_count fails (e.g. at 257). -/
theorem c4_width_within_factor_two (block_count : Int)
    (_h1 : 1 ≤ block_count) (h2 : block_count ≤ 2 ^ 31 - 1) :
    block_count < 2 * 2 ^ (8 * countKeptBytes block_count) := by
  have hstep : (2 : Int) ^ 31 - 1 < 2 * 256 ^ 16 := by norm_num
  have hbc16 : block_count < 2 * 256 ^ 16 := by linarith
  have h := countLoop_bound 16 block_count hbc16
  have hp : (256 : Int) ^ countLoop 16 block_count =
      2 ^ (8 * countLoop 16 block_count) := by
    rw [pow_mul]
    norm_num
  unfold countKeptBytes
  rw [← hp]
  exact h

/-- C4 witness: at the default bucket count 65536 the amended bound holds
(and there the prefix is in fact exactly sufficient: 2 bytes). -/
theorem c4_width_witness :
    (65536 : Int) < 2 * 2 ^ (8 * countKeptBytes 65536) :=
  c4_width_within_factor_two 65536 (by decide) (by decide)

/-- C5 corrected scenario: interval_length 60, interval_count 65536, clock
1700000000 → bucket index 28333333 as claimed, but
28333333 mod 65536 = 21781 = 0x5515, so the prefix bytes are 0x55 0x15;
the spec's 0x94 for the first byte is wrong. -/
theorem c5_first_byte_not_0x94 :
    resultByte (uuid_time_nextval 60 65536 (some 1700000000) okRng) 0 ≠ 0x94 := by
  decide

/-- C5 amended: the same scenario with the corrected first prefix byte:
bucket index 1700000000 / 60 = 28333333, two prefix bytes, and the output
carries the big-endian bytes 0x55 0x15 of 28333333 mod 65536. -/
theorem c5_time_scenario :
    Int.tdiv 1700000000 60 = 28333333 ∧
    countKeptBytes 65536 = 2 ∧
    resultByte (uuid_time_nextval 60 65536 (some 1700000000) okRng) 0 = 0x55 ∧
    resultByte (uuid_time_nextval 60 65536 (some 1700000000) okRng) 1 = 0x15 ∧
    specBigEndianByte 28333333 2 0 = 0x55 ∧
    specBigEndianByte 28333333 2 1 = 0x15 := by
  decide

/-- C6: the prefix-writing step puts the big-endian bytes of
bucket_index mod 256^byte_count into the first byte_count positions,
leaves the other 16 − byte_count bytes of the buffer untouched, and is
invariant under advancing the bucket index by any multiple of
256^byte_count (the resolved byte_count is at most 8 = sizeof(int64),
the number of bytes the copy loop can read from the value). -/
theorem c6_big_endian_and_untouched (val m : Int) (k : Nat) (buf : List Nat)
    (hk : k ≤ 8) :
    (∀ i, i < k →
      byteAt (copyKeptBytes val k buf) i = specBigEndianByte val k i) ∧
    (∀ i, k ≤ i → i < 16 →
      byteAt (copyKeptBytes val k buf) i = byteAt buf i) ∧
    copyKeptBytes (val + m * (256 : Int) ^ k) k buf =
      copyKeptBytes val k buf := by
  refine ⟨?_, ?_, ?_⟩
  · intro i hik
    rw [byteAt_copyKeptBytes_lo _ _ _ i (show i < 16 by omega) hik,
      int64Byte_emod _ (k - 1 - i) k (by omega) hk]
    rfl
  · intro i hki hi16
    exact byteAt_copyKeptBytes_hi _ _ _ i hi16 (by omega)
  · unfold copyKeptBytes
    apply mkBytes_congr
    intro i _
    by_cases hik : i < k
    · rw [if_pos hik, if_pos hik,
        int64Byte_add_mul _ _ (k - 1 - i) k (by omega) hk]
    · rw [if_neg hik, if_neg hik]

/-- C6 witness: bucket index 300 with a 2-byte prefix over a buffer of
sevens — byte 0 is the big-endian high byte of 300 mod 65536, byte 5 is
untouched, and adding 5·65536 to the bucket index changes nothing. -/
theorem c6_witness :
    byteAt (copyKeptBytes 300 2 (List.replicate 16 7)) 0 =
      specBigEndianByte 300 2 0 ∧
    byteAt (copyKeptBytes 300 2 (List.replicate 16 7)) 5 =
      byteAt (List.replicate 16 7) 5 ∧
    copyKeptBytes (300 + 5 * (256 : Int) ^ 2) 2 (List.replicate 16 7) =
      copyKeptBytes 300 2 (List.replicate 16 7) := by
  obtain ⟨a, b, c⟩ :=
    c6_big_endian_and_untouched 300 5 2 (List.replicate 16 7) (by decide)
  exact ⟨a 0 (by decide), b 5 (by decide) (by decide), c⟩

/-- C7: stamping any 16-byte value forces (byte6 and 0xF0) = 0x40 and
(byte8 and 0xC0) = 0x80, preserves the low nibble of byte 6 and the low
six bits of byte 8, and changes no other byte. -/
theorem c7_stamp_bits (buf : List Nat) :
    byteAt (stampV4 buf) 6 &&& 0xf0 = 0x40 ∧
    byteAt (stampV4 buf) 8 &&& 0xc0 = 0x80 ∧
    byteAt (stampV4 buf) 6 &&& 0x0f = byteAt buf 6 &&& 0x0f ∧
    byteAt (stampV4 buf) 8 &&& 0x3f = byteAt buf 8 &&& 0x3f ∧
    ∀ i, i < 16 → i ≠ 6 → i ≠ 8 → byteAt (stampV4 buf) i = byteAt buf i := by
  refine ⟨(stampV4_version_bits buf).1, (stampV4_version_bits buf).2,
    ?_, ?_, ?_⟩
  · rw [byteAt_stampV4_six]
    exact (low_nibble_or_version (byteAt buf 6 &&& 0x0f)
      (and_mask_lt_sixteen _)).2
  · rw [byteAt_stampV4_eight]
    exact (low_bits_or_variant (byteAt buf 8 &&& 0x3f)
      (and_mask_lt_sixtyfour _)).2
  · intro i hi h6 h8
    exact byteAt_stampV4_other _ i hi h6 h8

/-- C7 witness: stamping the bytes 0..15 — version and variant bits are
forced at bytes 6 and 8, byte 0 is unchanged. -/
theorem c7_stamp_witness :
    byteAt (stampV4 (List.range 16)) 6 &&& 0xf0 = 0x40 ∧
    byteAt (stampV4 (List.range 16)) 6 &&& 0x0f =
      byteAt (List.range 16) 6 &&& 0x0f ∧
    byteAt (stampV4 (List.range 16)) 0 = byteAt (List.range 16) 0 :=
  ⟨(c7_stamp_bits (List.range 16)).1,
   (c7_stamp_bits (List.range 16)).2.2.1,
   (c7_stamp_bits (List.range 16)).2.2.2.2 0 (by decide) (by decide) (by decide)⟩

/-- C8: in either mode, once the arguments pass validation, a failing
random source makes the call return the RandomSourceFailure error — an
Except.error, so no identifier, partial or otherwise, reaches the
caller. -/
theorem c8_rng_failure :
    (∀ (block_size block_count nextval : Int) (rng : Nat → Option (List Nat)),
      ¬ block_size < 0 → ¬ block_count < 0 →
      rng (UUID_LEN - countKeptBytes block_count) = none →
      uuid_sequence_nextval block_size block_count nextval rng =
        Except.error Failure.randomSourceFailure) ∧
    (∀ (interval_length interval_count tv_sec : Int)
        (rng : Nat → Option (List Nat)),
      ¬ interval_length < 1 → ¬ interval_count < 1 →
      rng (UUID_LEN - countKeptBytes interval_count) = none →
      uuid_time_nextval interval_length interval_count (some tv_sec) rng =
        Except.error Failure.randomSourceFailure) :=
  ⟨uuid_sequence_nextval_rng_fail, uuid_time_nextval_rng_fail⟩

/-- C8 witness: both modes with default parameters and a dead entropy
source fail with RandomSourceFailure. -/
theorem c8_rng_failure_witness :
    uuid_sequence_nextval 65546 65536 9999 failRng =
      Except.error Failure.randomSourceFailure ∧
    uuid_time_nextval 60 65536 (some 1700000000) failRng =
      Except.error Failure.randomSourceFailure :=
  ⟨c8_rng_failure.1 65546 65536 9999 failRng (by decide) (by decide) rfl,
   c8_rng_failure.2 60 65536 1700000000 failRng (by decide) (by decide) rfl⟩

/-- C9: for every 32-bit signed bucket-count argument the byte-counting
loop yields at most 4 (and, being a Nat, at least 0) prefix bytes, so at
least 12 of the 16 bytes are requested from the random source and the
prefix region [0, byte_count) never reaches the stamped bytes 6 and 8. -/
theorem c9_byte_count_bounded (block_count : Int)
    (_hlo : -(2 ^ 31) ≤ block_count) (hhi : block_count ≤ 2 ^ 31 - 1) :
    countKeptBytes block_count ≤ 4 ∧
    12 ≤ UUID_LEN - countKeptBytes block_count ∧
    countKeptBytes block_count < 6 := by
  have h4 := countKeptBytes_le_four block_count hhi
  refine ⟨h4, ?_, by omega⟩
  show 12 ≤ 16 - countKeptBytes block_count
  omega

/-- C9 witness: the largest int32 bucket count resolves to 4 bytes,
within every bound. -/
theorem c9_byte_count_witness :
    countKeptBytes 2147483647 ≤ 4 ∧
    12 ≤ UUID_LEN - countKeptBytes 2147483647 ∧
    countKeptBytes 2147483647 < 6 :=
  c9_byte_count_bounded 2147483647 (by decide) (by decide)

/-- C10: both entry points stamp unconditionally — every identifier either
one returns has (byte6 and 0xF0) = 0x40 and (byte8 and 0xC0) = 0x80. -/
theorem c10_stamp_unconditional :
    (∀ (block_size block_count nextval : Int)
        (rng : Nat → Option (List Nat)) (u : List Nat),
      uuid_sequence_nextval block_size block_count nextval rng = Except.ok u →
      byteAt u 6 &&& 0xf0 = 0x40 ∧ byteAt u 8 &&& 0xc0 = 0x80) ∧
    (∀ (interval_length interval_count : Int) (clock : Option Int)
        (rng : Nat → Option (List Nat)) (u : List Nat),
      uuid_time_nextval interval_length interval_count clock rng =
        Except.ok u →
      byteAt u 6 &&& 0xf0 = 0x40 ∧ byteAt u 8 &&& 0xc0 = 0x80) := by
  constructor
  · intro block_size block_count nextval rng u h
    by_cases h1 : block_size < 0
    · unfold uuid_sequence_nextval at h
      rw [if_pos h1] at h
      exact Except.noConfusion h
    · by_cases h2 : block_count < 0
      · unfold uuid_sequence_nextval at h
        rw [if_neg h1, if_pos h2] at h
        exact Except.noConfusion h
      · rcases hr : rng (UUID_LEN - countKeptBytes block_count) with _ | rnd
        · rw [uuid_sequence_nextval_rng_fail _ _ nextval rng h1 h2 hr] at h
          exact Except.noConfusion h
        · rw [uuid_sequence_nextval_ok _ _ nextval rng rnd h1 h2 hr] at h
          injection h with h
          subst h
          exact stampV4_version_bits _
  · intro interval_length interval_count clock rng u h
    by_cases h1 : interval_length < 1
    · unfold uuid_time_nextval at h
      rw [if_pos h1] at h
      exact Except.noConfusion h
    · by_cases h2 : interval_count < 1
      · unfold uuid_time_nextval at h
        rw [if_neg h1, if_pos h2] at h
        exact Except.noConfusion h
      · rcases clock with _ | tv_sec
        · unfold uuid_time_nextval at h
          rw [if_neg h1, if_neg h2] at h
          exact Except.noConfusion h
        · rcases hr : rng (UUID_LEN - countKeptBytes interval_count) with _ | rnd
          · rw [uuid_time_nextval_rng_fail _ _ tv_sec rng h1 h2 hr] at h
            exact Except.noConfusion h
          · rw [uuid_time_nextval_ok _ _ tv_sec rng rnd h1 h2 hr] at h
            injection h with h
            subst h
            exact stampV4_version_bits _

/-- C10 witness: concrete successful runs of both modes (default
parameters, all-zero randomness) carry the stamped version and variant
bits. -/
theorem c10_stamp_witness :
    byteAt [0, 0, 0, 0, 0, 0, 64, 0, 128, 0, 0, 0, 0, 0, 0, 0] 6 &&& 0xf0
        = 0x40 ∧
      byteAt [0, 0, 0, 0, 0, 0, 64, 0, 128, 0, 0, 0, 0, 0, 0, 0] 8 &&& 0xc0
        = 0x80 :=
  c10_stamp_unconditional.1 65546 65536 1 okRng
    [0, 0, 0, 0, 0, 0, 64, 0, 128, 0, 0, 0, 0, 0, 0, 0] rfl
